import Mathlib

/-!
Verification of the disk-capacity reporting tool (`capacity.py`, final revision).

The Python source is shallowly embedded: byte counts are natural numbers,
usage percentages and displayed sizes are exact rationals, Python's stable
`sorted` is modelled by a stable insertion sort, and the per-mount usage query
is an explicit oracle function so that the collector's skip/continue policy
can be stated for arbitrary environments.
-/

namespace Capacity

/-! ## Python primitives -/

/-- Python `str.upper()` modelled characterwise over the string's data. -/
def pyUpper (s : String) : String := String.mk (s.data.map Char.toUpper)

/-- Python `str.lower()` modelled characterwise over the string's data. -/
def pyLower (s : String) : String := String.mk (s.data.map Char.toLower)

/-- Python `str.startswith(pre)`. -/
def strStartsWith (s pre : String) : Bool := List.isPrefixOf pre.data s.data

/-- Python `round` to the nearest integer with ties to even (banker's
rounding), modelled on exact rationals. -/
def pyRoundHalfEven (q : ℚ) : ℤ :=
  let f : ℤ := ⌊q⌋
  let r : ℚ := q - f
  if r < 1/2 then f
  else if 1/2 < r then f + 1
  else if f % 2 = 0 then f else f + 1

/-- Python `round(x, 1)`: round to one decimal place, ties to even. -/
def pyRound1 (q : ℚ) : ℚ := (pyRoundHalfEven (10 * q) : ℚ) / 10

/-- Python dictionary lookup with default, `d.get(key, dflt)`, for the
string-keyed divisor table. -/
def dictGet (d : List (String × ℕ)) (key : String) (dflt : ℕ) : ℕ :=
  match d.find? (fun p => p.1 == key) with
  | some p => p.2
  | none => dflt

/-! ## Unit conversion (`bytes_to_human`) -/

/-- The divisor table of `bytes_to_human`:
`units = {'KB': 1024, 'MB': 1024**2, 'GB': 1024**3, 'TB': 1024**4}`. -/
def unitsTable : List (String × ℕ) :=
  [("KB", 1024), ("MB", 1024^2), ("GB", 1024^3), ("TB", 1024^4)]

/-- `divisor = units.get(unit.upper(), 1024**3)`. -/
def unitDivisor (unit : String) : ℕ := dictGet unitsTable (pyUpper unit) (1024^3)

/-- `bytes_to_human(bytes_val, unit)`: `round(bytes_val / divisor, 1)`. -/
def bytes_to_human (bytes_val : ℕ) (unit : String) : ℚ :=
  pyRound1 ((bytes_val : ℚ) / (unitDivisor unit : ℚ))

/-! ## Classifier -/

/-- The status tier assigned to a row in `generate_json_output`. -/
inductive Status where
  | OK
  | WARNING
  | CRITICAL
deriving DecidableEq

/-- Order of the tiers, `OK < WARNING < CRITICAL`. -/
def Status.rank : Status → ℕ
  | .OK => 0
  | .WARNING => 1
  | .CRITICAL => 2

/-- The classifier of `generate_json_output`:
`"CRITICAL" if percent >= CRITICAL_THRESHOLD else "WARNING" if percent >=
WARNING_THRESHOLD else "OK"`, with the thresholds taken from the (argument
updated) configuration. -/
def statusOf (warning critical : ℚ) (percent : ℚ) : Status :=
  if critical ≤ percent then .CRITICAL
  else if warning ≤ percent then .WARNING
  else .OK

/-- `get_color_for_usage(percent)`: same threshold comparisons, producing a
rich color style. -/
def get_color_for_usage (warning critical : ℚ) (percent : ℚ) : String :=
  if critical ≤ percent then "bold red"
  else if warning ≤ percent then "yellow"
  else "white"

/-! ## Data model of the collector -/

/-- One entry returned by `psutil.disk_partitions`. -/
structure Partition where
  device : String
  mountpoint : String
  fstype : String
deriving DecidableEq

/-- Outcome of the `psutil.disk_usage(part.mountpoint)` query together with
the `float(usage.percent)` conversion:
either a successful reading, or a `PermissionError`, or another `OSError`,
or a `ValueError` from a non-numeric percent value. -/
inductive QueryResult where
  | ok (total used free : ℕ) (percent : ℚ)
  | permissionDenied
  | osError
  | nonNumericPercent
deriving DecidableEq

/-- A diagnostic emitted by the collector, with its logging level. -/
inductive Diag where
  | warning (msg : String)
  | error (msg : String)
deriving DecidableEq

/-- One tuple of the collector's `rows` list:
`(device, mountpoint, bytes_to_human(total), bytes_to_human(used),
bytes_to_human(free), percent, fs_type)`. -/
structure Row where
  device : String
  mountpoint : String
  total : ℚ
  used : ℚ
  free : ℚ
  percent : ℚ
  fstype : String
deriving DecidableEq

/-- `Config.PSEUDO_FS_TYPES`. -/
def PSEUDO_FS_TYPES : List String :=
  ["proc", "sysfs", "tmpfs", "devtmpfs", "devpts", "cgroup", "cgroup2",
   "pstore", "bpf", "securityfs", "mqueue", "hugetlbfs", "tracefs"]

/-- The physical-only filter condition:
`physical_only and (part.fstype in Config.PSEUDO_FS_TYPES or
part.device.startswith('/dev/loop'))`. -/
def skipsMount (physical_only : Bool) (part : Partition) : Bool :=
  physical_only &&
    (PSEUDO_FS_TYPES.contains part.fstype || strStartsWith part.device "/dev/loop")

/-- The row constructed on a successful usage query; the collector calls
`bytes_to_human` with its default unit `'GB'`, and
`fs_type = part.fstype or "unknown"`. -/
def mkRow (part : Partition) (total used free : ℕ) (percent : ℚ) : Row :=
  { device := part.device
    mountpoint := part.mountpoint
    total := bytes_to_human total "GB"
    used := bytes_to_human used "GB"
    free := bytes_to_human free "GB"
    percent := percent
    fstype := if part.fstype = "" then "unknown" else part.fstype }

/-- The per-mount loop of `collect_storage_info`: skips entries with an empty
mountpoint, applies the physical-only filter, queries usage and either
appends a row or logs a diagnostic and continues. Returns the rows and the
emitted diagnostics, in order. -/
def collectLoop (query : String → QueryResult) (physical_only : Bool) :
    List Partition → List Row × List Diag
  | [] => ([], [])
  | part :: rest =>
    let r := collectLoop query physical_only rest
    if part.mountpoint = "" then r
    else if skipsMount physical_only part then r
    else
      match query part.mountpoint with
      | .ok t u f pc => (mkRow part t u f pc :: r.1, r.2)
      | .permissionDenied =>
        (r.1, Diag.warning ("Permission denied for mountpoint: " ++ part.mountpoint) :: r.2)
      | .osError =>
        (r.1, Diag.error ("Error accessing " ++ part.mountpoint) :: r.2)
      | .nonNumericPercent =>
        (r.1, Diag.error ("Error accessing " ++ part.mountpoint) :: r.2)

/-! ## Python's stable sort -/

/-- The comparison used by Python's
`sorted(rows, key=..., reverse=...)`: with `reverse` (descending) an element
stays before another one when its key is greater or equal; without, when its
key is smaller or equal. Ties always keep the earlier element first, which is
exactly CPython's stability guarantee (also under `reverse=True`). -/
def keyRel {α κ : Type} [LinearOrder κ] (k : α → κ) (reverse : Bool) (a b : α) : Prop :=
  if reverse then k b ≤ k a else k a ≤ k b

instance keyRelDecidable {α κ : Type} [LinearOrder κ] (k : α → κ) (reverse : Bool) :
    DecidableRel (keyRel k reverse) := fun a b => by
  unfold keyRel
  split <;> infer_instance

instance keyRelTotal {α κ : Type} [LinearOrder κ] (k : α → κ) (reverse : Bool) :
    IsTotal α (keyRel k reverse) := by
  constructor
  intro a b
  unfold keyRel
  split <;> exact le_total _ _

instance keyRelTrans {α κ : Type} [LinearOrder κ] (k : α → κ) (reverse : Bool) :
    IsTrans α (keyRel k reverse) := by
  constructor
  intro a b c hab hbc
  unfold keyRel at *
  split at hab <;> rename_i h <;> simp only [h, if_true, if_false, Bool.false_eq_true] at hbc ⊢
  · exact le_trans hbc hab
  · exact le_trans hab hbc

/-- Python `sorted(l, key=k, reverse=rev)`: a stable sort, modelled by
insertion sort with the comparison `keyRel`. -/
def pySorted {α κ : Type} [LinearOrder κ] (k : α → κ) (reverse : Bool) (l : List α) :
    List α :=
  l.insertionSort (keyRel k reverse)

/-- `sort_indices = {"mount": 1, "total": 2, "used": 3, "free": 4, "percent": 5}`. -/
def sort_indices : List (String × ℕ) :=
  [("mount", 1), ("total", 2), ("used", 3), ("free", 4), ("percent", 5)]

/-- Sorting by tuple position `i` (the value of `sort_indices[sort_key]`):
position 1 is the mountpoint string, positions 2-5 the numeric fields. -/
def sortByIndex (i : ℕ) (reverse : Bool) (rows : List Row) : List Row :=
  match i with
  | 1 => pySorted (fun r => r.mountpoint) reverse rows
  | 2 => pySorted (fun r => r.total) reverse rows
  | 3 => pySorted (fun r => r.used) reverse rows
  | 4 => pySorted (fun r => r.free) reverse rows
  | 5 => pySorted (fun r => r.percent) reverse rows
  | _ => rows

/-- The final statement of `collect_storage_info`:
`sorted(rows, key=lambda x: x[sort_indices[sort_key]], reverse=(sort_key != "mount"))`.
The dictionary lookup `sort_indices[sort_key]` sits inside the key lambda,
which `sorted` evaluates once per row before comparing; so the `KeyError` of
an unknown key (modelled by `none`) is raised exactly when there is at least
one row, and an empty row list is returned unchanged for any key. -/
def sortRows (sort_key : String) (rows : List Row) : Option (List Row) :=
  if rows.isEmpty then some rows
  else
    match sort_indices.find? (fun p => p.1 == sort_key) with
    | some p => some (sortByIndex p.2 (sort_key ≠ "mount") rows)
    | none => none

/-- `collect_storage_info`: the per-mount loop followed by the final sort.
The first component is `Except.error ()` when the sort raises `KeyError`;
the diagnostics of the loop are returned in either case (the loop has
already completed when the sort runs). -/
def collect_storage_info (query : String → QueryResult) (physical_only : Bool)
    (sort_key : String) (parts : List Partition) : Except Unit (List Row) × List Diag :=
  let r := collectLoop query physical_only parts
  match sortRows sort_key r.1 with
  | some rows => (Except.ok rows, r.2)
  | none => (Except.error (), r.2)

/-! ## Threshold check and exit code -/

/-- `check_thresholds(rows)`: `(has_warning, has_critical)`, each an `any`
over `row[5] >= threshold`. -/
def check_thresholds (warning critical : ℚ) (rows : List Row) : Bool × Bool :=
  (rows.any (fun r => decide (warning ≤ r.percent)),
   rows.any (fun r => decide (critical ≤ r.percent)))

/-- The exit code chosen at the end of `main` for a run that completes
normally: `2` if `has_critical`, else `1` if `has_warning`, else `0`. -/
def mainExitCode (warning critical : ℚ) (rows : List Row) : ℕ :=
  let checks := check_thresholds warning critical rows
  if checks.2 then 2
  else if checks.1 then 1
  else 0

/-! ## JSON output -/

/-- A JSON scalar as used in the output objects. -/
inductive JVal where
  | str (s : String)
  | num (q : ℚ)
deriving DecidableEq

/-- The status strings of `generate_json_output`. -/
def Status.label : Status → String
  | .OK => "OK"
  | .WARNING => "WARNING"
  | .CRITICAL => "CRITICAL"

/-- One object of the JSON array built by `generate_json_output`, as an
ordered field list. -/
def jsonRow (warning critical : ℚ) (r : Row) : List (String × JVal) :=
  [("device", .str r.device),
   ("mountpoint", .str r.mountpoint),
   ("total_gb", .num r.total),
   ("used_gb", .num r.used),
   ("free_gb", .num r.free),
   ("usage_percent", .num r.percent),
   ("filesystem", .str r.fstype),
   ("status", .str (statusOf warning critical r.percent).label)]

/-- `generate_json_output`: one object per row, in row order. -/
def generate_json_output (warning critical : ℚ) (rows : List Row) :
    List (List (String × JVal)) :=
  rows.map (jsonRow warning critical)

/-- The field-name list the specification prescribes for a JSON row: the
numeric field names are said to reflect the selected unit option. This
definition follows the specification's words, for comparison with `jsonRow`,
which is embedded from the source. -/
def specJsonFieldNames (unit : String) : List String :=
  ["device", "mountpoint",
   "total_" ++ pyLower unit, "used_" ++ pyLower unit, "free_" ++ pyLower unit,
   "usage_percent", "filesystem", "status"]

/-! ## Rounding lemmas -/

theorem pyRoundHalfEven_intCast (n : ℤ) : pyRoundHalfEven (n : ℚ) = n := by
  unfold pyRoundHalfEven
  simp

theorem pyRound1_intCast (n : ℤ) : pyRound1 (n : ℚ) = n := by
  unfold pyRound1
  have h : (10 : ℚ) * n = ((10 * n : ℤ) : ℚ) := by push_cast; ring
  rw [h, pyRoundHalfEven_intCast]
  push_cast
  ring

theorem pyRound1_eq_intCast (q : ℚ) (n : ℤ) (h : q = n) : pyRound1 q = n := by
  rw [h, pyRound1_intCast]

theorem pyRound1_eq_zero (q : ℚ) (h0 : 0 ≤ q) (h1 : q < 1/20) : pyRound1 q = 0 := by
  have hf : ⌊(10 * q : ℚ)⌋ = 0 := by
    rw [Int.floor_eq_iff]
    constructor
    · positivity
    · push_cast; linarith
  unfold pyRound1 pyRoundHalfEven
  rw [hf]
  norm_num
  intro h
  linarith

theorem abs_pyRoundHalfEven_sub (q : ℚ) : |(pyRoundHalfEven q : ℚ) - q| ≤ 1/2 := by
  have hfl : (⌊q⌋ : ℚ) ≤ q := Int.floor_le q
  have hfu : q < ⌊q⌋ + 1 := Int.lt_floor_add_one q
  unfold pyRoundHalfEven
  simp only []
  split
  case isTrue h => rw [abs_le]; constructor <;> linarith
  case isFalse h =>
    split
    case isTrue h2 => push_cast; rw [abs_le]; constructor <;> linarith
    case isFalse h2 =>
      have hr : q - (⌊q⌋ : ℚ) = 1/2 := le_antisymm (not_lt.mp h2) (not_lt.mp h)
      split <;> (push_cast; rw [abs_le]; constructor <;> linarith)

theorem abs_pyRound1_sub (q : ℚ) : |pyRound1 q - q| ≤ 1/20 := by
  have h := abs_pyRoundHalfEven_sub (10 * q)
  unfold pyRound1
  have heq : (pyRoundHalfEven (10 * q) : ℚ) / 10 - q =
      ((pyRoundHalfEven (10 * q) : ℚ) - 10 * q) / 10 := by ring
  rw [heq, abs_div]
  rw [show |(10 : ℚ)| = 10 by norm_num]
  linarith

/-! ## Classifier lemmas -/

theorem statusOf_eq_critical_iff (w c p : ℚ) :
    statusOf w c p = .CRITICAL ↔ c ≤ p := by
  unfold statusOf
  split_ifs with h1 h2
  · simp [h1]
  · constructor
    · intro hh
      exact absurd hh (by decide)
    · intro hh
      exact absurd hh h1
  · constructor
    · intro hh
      exact absurd hh (by decide)
    · intro hh
      exact absurd hh h1

theorem statusOf_eq_warning_iff (w c p : ℚ) :
    statusOf w c p = .WARNING ↔ w ≤ p ∧ p < c := by
  unfold statusOf
  split_ifs with h1 h2
  · constructor
    · intro hh
      exact absurd hh (by decide)
    · rintro ⟨h3, h4⟩
      exact absurd h4 (not_lt.mpr h1)
  · push_neg at h1
    simp [h2, h1]
  · constructor
    · intro hh
      exact absurd hh (by decide)
    · rintro ⟨h3, h4⟩
      exact absurd h3 h2

theorem statusOf_eq_ok_iff (w c p : ℚ) (hwc : w ≤ c) :
    statusOf w c p = .OK ↔ p < w := by
  unfold statusOf
  split_ifs with h1 h2
  · constructor
    · intro hh
      exact absurd hh (by decide)
    · intro hh
      exact absurd h1 (not_le.mpr (lt_of_lt_of_le hh hwc))
  · constructor
    · intro hh
      exact absurd hh (by decide)
    · intro hh
      exact absurd h2 (not_le.mpr hh)
  · push_neg at h2
    simp [h2]

theorem statusOf_rank_mono (w c : ℚ) (p p' : ℚ) (hpp : p ≤ p') :
    (statusOf w c p).rank ≤ (statusOf w c p').rank := by
  unfold statusOf
  split_ifs with h1 h2 h3 h4 h5 h6 h7 <;> simp [Status.rank] <;> linarith

/-! ## Claim theorems -/

/-- C1: for thresholds `w ≤ c`, both in `[0,100]`, and any percent `p`, the
classifier assigns `CRITICAL` exactly when `p ≥ c`, `WARNING` exactly when
`w ≤ p < c`, and `OK` exactly when `p < w`; the three tiers are mutually
exclusive (the classifier is a total function, so the exactly-one
characterizations give exclusivity), and the tier is monotonically
non-decreasing in `p`. -/
theorem classifier_tiers_exact_and_monotone (w c p : ℚ)
    (hwc : w ≤ c) (hw0 : 0 ≤ w) (hc100 : c ≤ 100) :
    (statusOf w c p = .CRITICAL ↔ c ≤ p) ∧
    (statusOf w c p = .WARNING ↔ w ≤ p ∧ p < c) ∧
    (statusOf w c p = .OK ↔ p < w) ∧
    (∀ p' : ℚ, p ≤ p' → (statusOf w c p).rank ≤ (statusOf w c p').rank) := by
  refine ⟨statusOf_eq_critical_iff w c p, statusOf_eq_warning_iff w c p,
    statusOf_eq_ok_iff w c p hwc, ?_⟩
  intro p' hpp
  exact statusOf_rank_mono w c p p' hpp

/-- Witness for C1 at `w = 85`, `c = 95`, `p = 90`. -/
theorem classifier_tiers_exact_and_monotone_witness :
    (85 : ℚ) ≤ 95 ∧ (0 : ℚ) ≤ 85 ∧ (95 : ℚ) ≤ 100 ∧
    (statusOf 85 95 90 = .WARNING ↔ (85 : ℚ) ≤ 90 ∧ (90 : ℚ) < 95) := by
  refine ⟨by norm_num, by norm_num, by norm_num, ?_⟩
  exact (classifier_tiers_exact_and_monotone 85 95 90 (by norm_num) (by norm_num)
    (by norm_num)).2.1

theorem check_thresholds_fst_iff (w c : ℚ) (rows : List Row) :
    (check_thresholds w c rows).1 = true ↔ ∃ r ∈ rows, w ≤ r.percent := by
  simp [check_thresholds]

theorem check_thresholds_snd_iff (w c : ℚ) (rows : List Row) :
    (check_thresholds w c rows).2 = true ↔ ∃ r ∈ rows, c ≤ r.percent := by
  simp [check_thresholds]

/-- C2: for a run that completes without interrupt or internal error, the
process exit code is `2` iff some collected row has `percent ≥ c`, `1` iff
some row has `percent ≥ w` and none has `percent ≥ c`, and `0` iff every row
has `percent < w`; equivalently, the code is the worst classifier tier
present among the rows, with critical taking priority over warning. -/
theorem exit_code_is_worst_tier (w c : ℚ) (rows : List Row) (hwc : w ≤ c) :
    (mainExitCode w c rows = 2 ↔ ∃ r ∈ rows, c ≤ r.percent) ∧
    (mainExitCode w c rows = 1 ↔
      ((∃ r ∈ rows, w ≤ r.percent) ∧ ¬ ∃ r ∈ rows, c ≤ r.percent)) ∧
    (mainExitCode w c rows = 0 ↔ ∀ r ∈ rows, r.percent < w) ∧
    (mainExitCode w c rows = 2 ↔ ∃ r ∈ rows, statusOf w c r.percent = .CRITICAL) ∧
    (mainExitCode w c rows = 1 ↔
      ((∃ r ∈ rows, statusOf w c r.percent = .WARNING) ∧
        ¬ ∃ r ∈ rows, statusOf w c r.percent = .CRITICAL)) ∧
    (mainExitCode w c rows = 0 ↔ ∀ r ∈ rows, statusOf w c r.percent = .OK) := by
  have hcrit : (∃ r ∈ rows, c ≤ r.percent) ↔
      (∃ r ∈ rows, statusOf w c r.percent = .CRITICAL) := by
    refine exists_congr fun r => and_congr_right fun _ => ?_
    exact (statusOf_eq_critical_iff w c r.percent).symm
  have hok : (∀ r ∈ rows, r.percent < w) ↔
      (∀ r ∈ rows, statusOf w c r.percent = .OK) := by
    refine forall₂_congr fun r _ => ?_
    exact (statusOf_eq_ok_iff w c r.percent hwc).symm
  have hwarn : ((∃ r ∈ rows, w ≤ r.percent) ∧ ¬ ∃ r ∈ rows, c ≤ r.percent) ↔
      ((∃ r ∈ rows, statusOf w c r.percent = .WARNING) ∧
        ¬ ∃ r ∈ rows, statusOf w c r.percent = .CRITICAL) := by
    rw [← hcrit]
    constructor
    · rintro ⟨⟨r, hr, hwp⟩, hnc⟩
      refine ⟨⟨r, hr, ?_⟩, hnc⟩
      rw [statusOf_eq_warning_iff]
      refine ⟨hwp, ?_⟩
      by_contra hcp
      exact hnc ⟨r, hr, not_lt.mp hcp⟩
    · rintro ⟨⟨r, hr, hst⟩, hnc⟩
      rw [statusOf_eq_warning_iff] at hst
      exact ⟨⟨r, hr, hst.1⟩, hnc⟩
  have key : (mainExitCode w c rows = 2 ↔ ∃ r ∈ rows, c ≤ r.percent) ∧
      (mainExitCode w c rows = 1 ↔
        ((∃ r ∈ rows, w ≤ r.percent) ∧ ¬ ∃ r ∈ rows, c ≤ r.percent)) ∧
      (mainExitCode w c rows = 0 ↔ ∀ r ∈ rows, r.percent < w) := by
    by_cases hc2 : (check_thresholds w c rows).2 = true
    · have hE := (check_thresholds_snd_iff w c rows).mp hc2
      have hm : mainExitCode w c rows = 2 := by
        unfold mainExitCode
        rw [if_pos hc2]
      refine ⟨iff_of_true hm hE, iff_of_false (by omega) ?_, iff_of_false (by omega) ?_⟩
      · rintro ⟨_, hnc⟩
        exact hnc hE
      · intro hall
        obtain ⟨r, hr, hcp⟩ := hE
        exact absurd (hall r hr) (not_lt.mpr (le_trans hwc hcp))
    · have hnE : ¬ ∃ r ∈ rows, c ≤ r.percent := fun hE =>
        hc2 ((check_thresholds_snd_iff w c rows).mpr hE)
      by_cases hc1 : (check_thresholds w c rows).1 = true
      · have hW := (check_thresholds_fst_iff w c rows).mp hc1
        have hm : mainExitCode w c rows = 1 := by
          unfold mainExitCode
          rw [if_neg hc2, if_pos hc1]
        refine ⟨iff_of_false (by omega) hnE, iff_of_true hm ⟨hW, hnE⟩,
          iff_of_false (by omega) ?_⟩
        intro hall
        obtain ⟨r, hr, hwp⟩ := hW
        exact absurd (hall r hr) (not_lt.mpr hwp)
      · have hnW : ¬ ∃ r ∈ rows, w ≤ r.percent := fun hW =>
          hc1 ((check_thresholds_fst_iff w c rows).mpr hW)
        have hm : mainExitCode w c rows = 0 := by
          unfold mainExitCode
          rw [if_neg hc2, if_neg hc1]
        refine ⟨iff_of_false (by omega) hnE, iff_of_false (by omega) ?_, iff_of_true hm ?_⟩
        · rintro ⟨hW, _⟩
          exact hnW hW
        · intro r hr
          by_contra hge
          exact hnW ⟨r, hr, not_lt.mp hge⟩
  obtain ⟨k2, k1, k0⟩ := key
  exact ⟨k2, k1, k0, k2.trans hcrit, k1.trans hwarn, k0.trans hok⟩

/-- Witness for C2: one mount at 97 percent under thresholds (85, 95):
the exit code is 2 exactly when a row reaches the critical threshold. -/
theorem exit_code_is_worst_tier_witness :
    (85 : ℚ) ≤ 95 ∧
    (mainExitCode 85 95 [⟨"c", "/c", 1, 1, 0, 97, "ext4"⟩] = 2 ↔
      ∃ r ∈ [(⟨"c", "/c", 1, 1, 0, 97, "ext4"⟩ : Row)], (95 : ℚ) ≤ r.percent) := by
  exact ⟨by norm_num, (exit_code_is_worst_tier 85 95 _ (by norm_num)).1⟩

/-! ## Stable-sort lemmas -/

theorem keyRel_false_iff {α κ : Type} [LinearOrder κ] (k : α → κ) (a b : α) :
    keyRel k false a b ↔ k a ≤ k b := by
  simp [keyRel]

theorem keyRel_true_iff {α κ : Type} [LinearOrder κ] (k : α → κ) (a b : α) :
    keyRel k true a b ↔ k b ≤ k a := by
  simp [keyRel]

theorem keyRel_of_key_eq {α κ : Type} [LinearOrder κ] (k : α → κ) (rev : Bool)
    {a b : α} (h : k a = k b) : keyRel k rev a b := by
  unfold keyRel
  split
  · exact le_of_eq h.symm
  · exact le_of_eq h

theorem key_ne_of_not_keyRel {α κ : Type} [LinearOrder κ] (k : α → κ) (rev : Bool)
    {a b : α} (h : ¬ keyRel k rev a b) : k a ≠ k b :=
  fun he => h (keyRel_of_key_eq k rev he)

theorem filter_orderedInsert {α κ : Type} [LinearOrder κ] [DecidableEq κ] (k : α → κ) (rev : Bool)
    (x : α) (l : List α) (v : κ) :
    (l.orderedInsert (keyRel k rev) x).filter (fun a => decide (k a = v)) =
      if k x = v then x :: l.filter (fun a => decide (k a = v))
      else l.filter (fun a => decide (k a = v)) := by
  induction l with
  | nil =>
    by_cases hv : k x = v <;> simp [List.orderedInsert, List.filter, hv]
  | cons y ys ih =>
    simp only [List.orderedInsert]
    by_cases hxy : keyRel k rev x y
    · rw [if_pos hxy]
      by_cases hv : k x = v <;> simp [List.filter_cons, hv]
    · rw [if_neg hxy]
      have hne : k x ≠ k y := key_ne_of_not_keyRel k rev hxy
      by_cases hv : k x = v
      · have hyv : ¬ (k y = v) := fun hy => hne (hv.trans hy.symm)
        simp [List.filter_cons, hyv, ih, hv]
      · by_cases hyv : k y = v <;> simp [List.filter_cons, hyv, ih, hv]

theorem pySorted_stable {α κ : Type} [LinearOrder κ] [DecidableEq κ] (k : α → κ) (rev : Bool)
    (l : List α) (v : κ) :
    (pySorted k rev l).filter (fun a => decide (k a = v)) =
      l.filter (fun a => decide (k a = v)) := by
  induction l with
  | nil => rfl
  | cons x xs ih =>
    unfold pySorted at *
    simp only [List.insertionSort]
    rw [filter_orderedInsert]
    by_cases hv : k x = v <;> simp [hv, ih, List.filter_cons]

theorem pySorted_sorted {α κ : Type} [LinearOrder κ] (k : α → κ) (rev : Bool)
    (l : List α) : (pySorted k rev l).Pairwise (keyRel k rev) :=
  List.sorted_insertionSort (keyRel k rev) l

theorem pySorted_perm {α κ : Type} [LinearOrder κ] (k : α → κ) (rev : Bool)
    (l : List α) : (pySorted k rev l).Perm l :=
  List.perm_insertionSort (keyRel k rev) l

theorem sortRows_known_keys (rows : List Row) :
    sortRows "mount" rows = some (pySorted (fun r => r.mountpoint) false rows) ∧
    sortRows "total" rows = some (pySorted (fun r => r.total) true rows) ∧
    sortRows "used" rows = some (pySorted (fun r => r.used) true rows) ∧
    sortRows "free" rows = some (pySorted (fun r => r.free) true rows) ∧
    sortRows "percent" rows = some (pySorted (fun r => r.percent) true rows) := by
  cases rows <;> exact ⟨rfl, rfl, rfl, rfl, rfl⟩

/-- C4: for every row list, sorting by `mount` orders ascending
lexicographically on the mountpoint, and sorting by any of `total`, `used`,
`free`, `percent` orders descending on that field's derived value; in every
case the result is a permutation of the rows and the sort is stable: the
rows with any given key value appear in their original relative order
(stated as: filtering by each key value commutes with sorting). -/
theorem sorter_directions_and_stability (rows : List Row) :
    (∃ out, sortRows "mount" rows = some out ∧ out.Perm rows ∧
      out.Pairwise (fun a b => a.mountpoint ≤ b.mountpoint) ∧
      ∀ v : String, out.filter (fun r => decide (r.mountpoint = v)) =
        rows.filter (fun r => decide (r.mountpoint = v))) ∧
    (∃ out, sortRows "total" rows = some out ∧ out.Perm rows ∧
      out.Pairwise (fun a b => b.total ≤ a.total) ∧
      ∀ v : ℚ, out.filter (fun r => decide (r.total = v)) =
        rows.filter (fun r => decide (r.total = v))) ∧
    (∃ out, sortRows "used" rows = some out ∧ out.Perm rows ∧
      out.Pairwise (fun a b => b.used ≤ a.used) ∧
      ∀ v : ℚ, out.filter (fun r => decide (r.used = v)) =
        rows.filter (fun r => decide (r.used = v))) ∧
    (∃ out, sortRows "free" rows = some out ∧ out.Perm rows ∧
      out.Pairwise (fun a b => b.free ≤ a.free) ∧
      ∀ v : ℚ, out.filter (fun r => decide (r.free = v)) =
        rows.filter (fun r => decide (r.free = v))) ∧
    (∃ out, sortRows "percent" rows = some out ∧ out.Perm rows ∧
      out.Pairwise (fun a b => b.percent ≤ a.percent) ∧
      ∀ v : ℚ, out.filter (fun r => decide (r.percent = v)) =
        rows.filter (fun r => decide (r.percent = v))) := by
  obtain ⟨e1, e2, e3, e4, e5⟩ := sortRows_known_keys rows
  refine ⟨⟨pySorted (fun r => r.mountpoint) false rows, e1,
      pySorted_perm _ _ _, ?_, fun v => pySorted_stable _ _ _ _⟩,
    ⟨pySorted (fun r => r.total) true rows, e2,
      pySorted_perm _ _ _, ?_, fun v => pySorted_stable _ _ _ _⟩,
    ⟨pySorted (fun r => r.used) true rows, e3,
      pySorted_perm _ _ _, ?_, fun v => pySorted_stable _ _ _ _⟩,
    ⟨pySorted (fun r => r.free) true rows, e4,
      pySorted_perm _ _ _, ?_, fun v => pySorted_stable _ _ _ _⟩,
    ⟨pySorted (fun r => r.percent) true rows, e5,
      pySorted_perm _ _ _, ?_, fun v => pySorted_stable _ _ _ _⟩⟩
  · exact (pySorted_sorted (fun r => r.mountpoint) false rows).imp
      (fun h => (keyRel_false_iff _ _ _).mp h)
  · exact (pySorted_sorted (fun r => r.total) true rows).imp
      (fun h => (keyRel_true_iff _ _ _).mp h)
  · exact (pySorted_sorted (fun r => r.used) true rows).imp
      (fun h => (keyRel_true_iff _ _ _).mp h)
  · exact (pySorted_sorted (fun r => r.free) true rows).imp
      (fun h => (keyRel_true_iff _ _ _).mp h)
  · exact (pySorted_sorted (fun r => r.percent) true rows).imp
      (fun h => (keyRel_true_iff _ _ _).mp h)

/-! ## Collector lemmas -/

theorem collectLoop_append (query : String → QueryResult) (po : Bool)
    (l1 l2 : List Partition) :
    collectLoop query po (l1 ++ l2) =
      ((collectLoop query po l1).1 ++ (collectLoop query po l2).1,
       (collectLoop query po l1).2 ++ (collectLoop query po l2).2) := by
  induction l1 with
  | nil => simp [collectLoop]
  | cons part rest ih =>
    simp only [List.cons_append, collectLoop, List.append_eq]
    rw [ih]
    by_cases h1 : part.mountpoint = ""
    · simp [h1]
    · by_cases h2 : skipsMount po part
      · simp [h1, h2]
      · cases hq : query part.mountpoint <;> simp [h1, h2, hq]

theorem collectLoop_skip_single (query : String → QueryResult) (po : Bool)
    (part : Partition) (hmp : ¬ part.mountpoint = "") (hsk : ¬ skipsMount po part = true) :
    collectLoop query po [part] =
      (match query part.mountpoint with
       | .ok t u f pc => ([mkRow part t u f pc], [])
       | .permissionDenied =>
         ([], [Diag.warning ("Permission denied for mountpoint: " ++ part.mountpoint)])
       | .osError => ([], [Diag.error ("Error accessing " ++ part.mountpoint)])
       | .nonNumericPercent =>
         ([], [Diag.error ("Error accessing " ++ part.mountpoint)])) := by
  cases hq : query part.mountpoint <;> simp [collectLoop, hmp, hsk, hq]

/-- C3: a mount whose usage query fails with permission-denied is skipped
with a warning-level diagnostic; a mount whose query fails with another
OS-level error or whose percent value is non-numeric is skipped with an
error-level diagnostic. In every case the rows are exactly those of the run
without the failing mount (collection continues, nothing propagates), and the
diagnostics of the surrounding mounts are unaffected. -/
theorem collector_skips_failing_mounts (query : String → QueryResult) (po : Bool)
    (pre post : List Partition) (part : Partition)
    (hmp : part.mountpoint ≠ "") (hsk : skipsMount po part = false) :
    (query part.mountpoint = .permissionDenied →
      (collectLoop query po (pre ++ part :: post)).1 =
        (collectLoop query po (pre ++ post)).1 ∧
      (collectLoop query po (pre ++ part :: post)).2 =
        (collectLoop query po pre).2 ++
          Diag.warning ("Permission denied for mountpoint: " ++ part.mountpoint) ::
            (collectLoop query po post).2) ∧
    ((query part.mountpoint = .osError ∨ query part.mountpoint = .nonNumericPercent) →
      (collectLoop query po (pre ++ part :: post)).1 =
        (collectLoop query po (pre ++ post)).1 ∧
      (collectLoop query po (pre ++ part :: post)).2 =
        (collectLoop query po pre).2 ++
          Diag.error ("Error accessing " ++ part.mountpoint) ::
            (collectLoop query po post).2) := by
  have hsk' : ¬ skipsMount po part = true := by simp [hsk]
  have hmid : pre ++ part :: post = pre ++ [part] ++ post := by simp
  have happ : collectLoop query po (pre ++ part :: post) =
      ((collectLoop query po pre).1 ++ (collectLoop query po [part]).1 ++
        (collectLoop query po post).1,
       (collectLoop query po pre).2 ++ (collectLoop query po [part]).2 ++
        (collectLoop query po post).2) := by
    rw [hmid, collectLoop_append, collectLoop_append]
  have happ2 : collectLoop query po (pre ++ post) =
      ((collectLoop query po pre).1 ++ (collectLoop query po post).1,
       (collectLoop query po pre).2 ++ (collectLoop query po post).2) :=
    collectLoop_append query po pre post
  constructor
  · intro hq
    have hone : collectLoop query po [part] =
        ([], [Diag.warning ("Permission denied for mountpoint: " ++ part.mountpoint)]) := by
      rw [collectLoop_skip_single query po part hmp hsk', hq]
    rw [happ, happ2, hone]
    simp
  · intro hq
    have hone : collectLoop query po [part] =
        ([], [Diag.error ("Error accessing " ++ part.mountpoint)]) := by
      rcases hq with hq | hq <;> rw [collectLoop_skip_single query po part hmp hsk', hq]
    rw [happ, happ2, hone]
    simp

/-- Witness for C3: among three mounts, the middle one is permission-denied;
it is skipped with a warning while the other two still produce their rows. -/
theorem collector_skips_failing_mounts_witness :
    (("/b" : String) ≠ "") ∧
    (skipsMount false ⟨"/dev/sdb1", "/b", "ext4"⟩ = false) ∧
    (((fun m => if m = "/b" then QueryResult.permissionDenied
        else QueryResult.ok 1024 512 512 50) "/b" = QueryResult.permissionDenied) →
      (collectLoop (fun m => if m = "/b" then QueryResult.permissionDenied
          else QueryResult.ok 1024 512 512 50) false
          ([⟨"/dev/sda1", "/a", "ext4"⟩] ++ ⟨"/dev/sdb1", "/b", "ext4"⟩ ::
            [⟨"/dev/sdc1", "/c", "ext4"⟩])).1 =
        (collectLoop (fun m => if m = "/b" then QueryResult.permissionDenied
          else QueryResult.ok 1024 512 512 50) false
          ([⟨"/dev/sda1", "/a", "ext4"⟩] ++ [⟨"/dev/sdc1", "/c", "ext4"⟩])).1 ∧
      (collectLoop (fun m => if m = "/b" then QueryResult.permissionDenied
          else QueryResult.ok 1024 512 512 50) false
          ([⟨"/dev/sda1", "/a", "ext4"⟩] ++ ⟨"/dev/sdb1", "/b", "ext4"⟩ ::
            [⟨"/dev/sdc1", "/c", "ext4"⟩])).2 =
        (collectLoop (fun m => if m = "/b" then QueryResult.permissionDenied
          else QueryResult.ok 1024 512 512 50) false [⟨"/dev/sda1", "/a", "ext4"⟩]).2 ++
          Diag.warning ("Permission denied for mountpoint: " ++ "/b") ::
            (collectLoop (fun m => if m = "/b" then QueryResult.permissionDenied
              else QueryResult.ok 1024 512 512 50) false [⟨"/dev/sdc1", "/c", "ext4"⟩]).2) := by
  refine ⟨by decide, by decide, ?_⟩
  exact (collector_skips_failing_mounts
    (fun m => if m = "/b" then QueryResult.permissionDenied else QueryResult.ok 1024 512 512 50)
    false [⟨"/dev/sda1", "/a", "ext4"⟩]
    [⟨"/dev/sdc1", "/c", "ext4"⟩] ⟨"/dev/sdb1", "/b", "ext4"⟩ (by decide) (by decide)).1

/-- C5: an enumerated entry with an empty mountpoint never produces a row,
for any flags; with `physical_only` set, a mount whose filesystem type is in
the pseudo-filesystem set or whose device starts with `/dev/loop` is absent
from the run (rows and diagnostics are as if it were not enumerated); with
`physical_only` unset, such a mount is not filtered: a successful usage
query contributes its row. -/
theorem collector_filters_pseudo_and_empty (query : String → QueryResult)
    (po : Bool) (pre post : List Partition) (part : Partition) :
    (part.mountpoint = "" →
      collectLoop query po (pre ++ part :: post) = collectLoop query po (pre ++ post)) ∧
    ((part.fstype ∈ PSEUDO_FS_TYPES ∨ strStartsWith part.device "/dev/loop" = true) →
      collectLoop query true (pre ++ part :: post) = collectLoop query true (pre ++ post)) ∧
    (part.mountpoint ≠ "" → ∀ t u f pc, query part.mountpoint = .ok t u f pc →
      mkRow part t u f pc ∈ (collectLoop query false (pre ++ part :: post)).1) := by
  refine ⟨?_, ?_, ?_⟩
  · intro hmp
    have hmid : pre ++ part :: post = pre ++ [part] ++ post := by simp
    have hone : collectLoop query po [part] = ([], []) := by
      simp [collectLoop, hmp]
    rw [hmid, collectLoop_append, collectLoop_append, hone,
      collectLoop_append]
    simp
  · intro hps
    have hskip : skipsMount true part = true := by
      unfold skipsMount
      simp only [Bool.true_and, Bool.or_eq_true]
      rcases hps with h | h
      · left
        exact List.elem_iff.mpr h
      · right
        exact h
    have hmid : pre ++ part :: post = pre ++ [part] ++ post := by simp
    have hone : collectLoop query true [part] = ([], []) := by
      by_cases hm : part.mountpoint = "" <;> simp [collectLoop, hm, hskip]
    rw [hmid, collectLoop_append, collectLoop_append, hone,
      collectLoop_append]
    simp
  · intro hmp t u f pc hq
    have hsk : ¬ skipsMount false part = true := by simp [skipsMount]
    have hmid : pre ++ part :: post = pre ++ [part] ++ post := by simp
    have hone : collectLoop query false [part] = ([mkRow part t u f pc], []) := by
      rw [collectLoop_skip_single query false part hmp hsk, hq]
    rw [hmid, collectLoop_append, collectLoop_append, hone]
    simp

/-- Witness for C5: a `tmpfs` mount is dropped when `physical_only` is set,
and kept (its row present) when it is not. -/
theorem collector_filters_pseudo_and_empty_witness :
    (("tmpfs" : String) ∈ PSEUDO_FS_TYPES ∨
      strStartsWith "tmpfs-dev" "/dev/loop" = true) ∧
    (collectLoop (fun _ => QueryResult.ok 2048 1024 1024 50) true
        ([] ++ (⟨"tmpfs-dev", "/run", "tmpfs"⟩ : Partition) :: []) =
      collectLoop (fun _ => QueryResult.ok 2048 1024 1024 50) true ([] ++ [])) := by
  refine ⟨Or.inl (by decide), ?_⟩
  exact (collector_filters_pseudo_and_empty
    (fun _ => QueryResult.ok 2048 1024 1024 50) true [] []
    ⟨"tmpfs-dev", "/run", "tmpfs"⟩).2.1 (Or.inl (by decide))

/-- C10 counterexample: with an unknown sort key and an empty partition
list (so zero collected rows), `collect_storage_info` completes without
raising and returns the empty row list, even though the key is not one of
the five known keys: the `KeyError` lives inside the sort's key lambda,
which is never invoked on an empty list. -/
theorem collect_storage_info_unknown_key_no_rows_ok :
    (collect_storage_info (fun _ => QueryResult.osError) false "bogus" []).1 =
      Except.ok [] ∧
    ("bogus" : String) ∉ ["mount", "total", "used", "free", "percent"] :=
  ⟨rfl, by decide⟩

/-- C10 (amended): `collect_storage_info` completes without raising exactly
when its sort key is one of the five known keys or no row was collected;
for any other sort key with at least one collected row, the dictionary
lookup inside the sort's key lambda raises `KeyError`, but only after the
whole per-mount loop has run (the diagnostics are those of the full loop in
either case). So the five-key precondition is what guarantees totality of
the collector at its public interface on runs that collect any rows. -/
theorem collect_storage_info_known_key_or_no_rows (query : String → QueryResult)
    (po : Bool) (sk : String) (parts : List Partition) :
    ((∃ rs, (collect_storage_info query po sk parts).1 = Except.ok rs) ↔
      (sk ∈ ["mount", "total", "used", "free", "percent"] ∨
        (collectLoop query po parts).1 = [])) ∧
    (collect_storage_info query po sk parts).2 = (collectLoop query po parts).2 := by
  unfold collect_storage_info sortRows
  by_cases he : (collectLoop query po parts).1.isEmpty
  · simp only [he, ite_true, if_true]
    refine ⟨iff_of_true ⟨_, rfl⟩ (Or.inr ?_), trivial⟩
    exact List.isEmpty_iff.mp he
  · have he2 : (collectLoop query po parts).1.isEmpty = false := by
      simpa using he
    simp only [he2, Bool.false_eq_true, ite_false, if_false]
    cases hf : sort_indices.find? (fun p => p.1 == sk) with
    | some p =>
      simp only [hf]
      refine ⟨iff_of_true ⟨_, rfl⟩ (Or.inl ?_), ?_⟩
      · have hsk : p.1 = sk := by simpa using List.find?_some hf
        have hm5 : p = ("mount", 1) ∨ p = ("total", 2) ∨ p = ("used", 3) ∨
            p = ("free", 4) ∨ p = ("percent", 5) := by
          simpa [sort_indices] using List.mem_of_find?_eq_some hf
        rw [← hsk]
        rcases hm5 with rfl | rfl | rfl | rfl | rfl <;> decide
      · trivial
    | none =>
      simp only [hf]
      refine ⟨iff_of_false ?_ ?_, ?_⟩
      · rintro ⟨rs, hrs⟩
        simp at hrs
      · rintro (hmem | hnil)
        · exact absurd hf (by fin_cases hmem <;> decide)
        · rw [hnil] at he2
          simp at he2
      · trivial

theorem unitDivisor_cases (u : String) :
    (pyUpper u = "KB" → unitDivisor u = 1024) ∧
    (pyUpper u = "MB" → unitDivisor u = 1024^2) ∧
    (pyUpper u = "GB" → unitDivisor u = 1024^3) ∧
    (pyUpper u = "TB" → unitDivisor u = 1024^4) ∧
    (pyUpper u ∉ ["KB", "MB", "GB", "TB"] → unitDivisor u = 1024^3) := by
  refine ⟨fun h => ?_, fun h => ?_, fun h => ?_, fun h => ?_, fun h => ?_⟩
  · unfold unitDivisor
    rw [h]
    decide
  · unfold unitDivisor
    rw [h]
    decide
  · unfold unitDivisor
    rw [h]
    decide
  · unfold unitDivisor
    rw [h]
    decide
  · have hnone : unitsTable.find? (fun p => p.1 == pyUpper u) = none := by
      rw [List.find?_eq_none]
      intro x hx
      simp only [beq_iff_eq]
      intro hxe
      apply h
      rw [← hxe]
      fin_cases hx <;> decide
    unfold unitDivisor dictGet
    rw [hnone]

/-- C8: for every byte count and unit string, `bytes_to_human` divides by the
divisor the table assigns to the uppercased unit (`KB`, `MB`, `GB`, `TB`)
and rounds to one decimal place; a unit not in the table falls back to the
GB divisor `1024^3`. -/
theorem bytes_to_human_divisor_table (b : ℕ) (u : String) :
    (pyUpper u = "KB" → bytes_to_human b u = pyRound1 ((b : ℚ) / 1024)) ∧
    (pyUpper u = "MB" → bytes_to_human b u = pyRound1 ((b : ℚ) / 1024^2)) ∧
    (pyUpper u = "GB" → bytes_to_human b u = pyRound1 ((b : ℚ) / 1024^3)) ∧
    (pyUpper u = "TB" → bytes_to_human b u = pyRound1 ((b : ℚ) / 1024^4)) ∧
    (pyUpper u ∉ ["KB", "MB", "GB", "TB"] →
      bytes_to_human b u = pyRound1 ((b : ℚ) / 1024^3)) := by
  obtain ⟨h1, h2, h3, h4, h5⟩ := unitDivisor_cases u
  refine ⟨fun h => ?_, fun h => ?_, fun h => ?_, fun h => ?_, fun h => ?_⟩
  · unfold bytes_to_human
    rw [h1 h]
    norm_num
  · unfold bytes_to_human
    rw [h2 h]
    norm_num
  · unfold bytes_to_human
    rw [h3 h]
    norm_num
  · unfold bytes_to_human
    rw [h4 h]
    norm_num
  · unfold bytes_to_human
    rw [h5 h]
    norm_num

/-- Witness for C8: a lowercase `kb` unit selects the KB divisor
(and 2048 bytes display as 2.0), while an unrecognized unit falls back to
the GB divisor (5 GiB display as 5.0). -/
theorem bytes_to_human_divisor_table_witness :
    pyUpper "kb" = "KB" ∧ bytes_to_human 2048 "kb" = 2 ∧
    pyUpper "blocks" ∉ ["KB", "MB", "GB", "TB"] ∧
    bytes_to_human (5 * 1024^3) "blocks" = 5 := by
  refine ⟨by decide, ?_, by decide, ?_⟩
  · rw [(bytes_to_human_divisor_table 2048 "kb").1 (by decide)]
    rw [pyRound1_eq_intCast _ 2 (by push_cast; norm_num)]
    norm_num
  · rw [(bytes_to_human_divisor_table (5 * 1024^3) "blocks").2.2.2.2 (by decide)]
    rw [pyRound1_eq_intCast _ 5 (by push_cast; norm_num)]
    norm_num

/-- C9: for every byte count and recognized unit, the displayed value times
the unit's divisor is within half of one tenth of the divisor of the exact
byte count: rounding to one decimal place at the target unit loses at most
`0.05 * divisor` bytes. -/
theorem bytes_to_human_roundtrip (b : ℕ) (u : String)
    (h : pyUpper u ∈ ["KB", "MB", "GB", "TB"]) :
    |bytes_to_human b u * (unitDivisor u : ℚ) - b| ≤ 1/20 * (unitDivisor u : ℚ) := by
  obtain ⟨h1, h2, h3, h4, _⟩ := unitDivisor_cases u
  have hd : (0 : ℚ) < (unitDivisor u : ℚ) := by
    simp only [List.mem_cons, List.mem_singleton, List.not_mem_nil, or_false] at h
    rcases h with h | h | h | h
    · rw [h1 h]; norm_num
    · rw [h2 h]; norm_num
    · rw [h3 h]; norm_num
    · rw [h4 h]; norm_num
  have hd' : (unitDivisor u : ℚ) ≠ 0 := ne_of_gt hd
  have habs := abs_pyRound1_sub ((b : ℚ) / (unitDivisor u : ℚ))
  have key : bytes_to_human b u * (unitDivisor u : ℚ) - b =
      (pyRound1 ((b : ℚ) / (unitDivisor u : ℚ)) -
        (b : ℚ) / (unitDivisor u : ℚ)) * (unitDivisor u : ℚ) := by
    unfold bytes_to_human
    field_simp
  rw [key, abs_mul, abs_of_pos hd]
  have hmul := mul_le_mul_of_nonneg_right habs (le_of_lt hd)
  linarith

/-- Witness for C9 at 3072 bytes and unit `KB`. -/
theorem bytes_to_human_roundtrip_witness :
    pyUpper "KB" ∈ ["KB", "MB", "GB", "TB"] ∧
    |bytes_to_human 3072 "KB" * (unitDivisor "KB" : ℚ) - 3072| ≤
      1/20 * (unitDivisor "KB" : ℚ) :=
  ⟨by decide, bytes_to_human_roundtrip 3072 "KB" (by decide)⟩

/-- C6 (code bug): the collector always converts with the default `'GB'`
unit; the parsed unit option is never passed in. On a mount with 1024 total
bytes the collected display value is `0.0` (GB divisor), even though the
KB divisor selected by `--unit KB` would display `1.0`. -/
theorem collector_display_ignores_unit_option :
    (collectLoop (fun _ => QueryResult.ok 1024 1024 0 50) false
        [⟨"/dev/sda1", "/", "ext4"⟩]).1 =
      [{ device := "/dev/sda1", mountpoint := "/", total := 0, used := 0, free := 0,
         percent := 50, fstype := "ext4" }] ∧
    bytes_to_human 1024 "KB" = 1 ∧
    bytes_to_human 1024 "GB" = 0 := by
  have hGB : bytes_to_human 1024 "GB" = 0 := by
    unfold bytes_to_human
    rw [(unitDivisor_cases "GB").2.2.1 (by decide)]
    apply pyRound1_eq_zero <;> norm_num
  have h0 : bytes_to_human 0 "GB" = 0 := by
    unfold bytes_to_human
    apply pyRound1_eq_zero <;> norm_num
  have hKB : bytes_to_human 1024 "KB" = 1 := by
    unfold bytes_to_human
    rw [(unitDivisor_cases "KB").1 (by decide)]
    rw [pyRound1_eq_intCast _ 1 (by push_cast; norm_num)]
    norm_num
  refine ⟨?_, hKB, hGB⟩
  simp [collectLoop, skipsMount, mkRow, hGB, h0, strStartsWith]

/-- C7 counterexample: with unit `KB` selected, the specification's
unit-reflecting field names (`total_kb`, ...) are not the field names the
code emits (always `total_gb`, ...). -/
theorem json_field_names_do_not_reflect_unit :
    (jsonRow 85 95 ⟨"/dev/sda1", "/", 100, 50, 50, 50, "ext4"⟩).map Prod.fst ≠
      specJsonFieldNames "KB" := by
  decide

/-- C7 (amended): every JSON row object has exactly the eight fields
`device, mountpoint, total_gb, used_gb, free_gb, usage_percent, filesystem,
status`, in this order, with the status value one of `OK`, `WARNING`,
`CRITICAL`; the numeric field names are fixed (they coincide with the
specification's unit-reflecting names only for unit `GB`). -/
theorem json_row_fields_exact (w c : ℚ) (r : Row) :
    (jsonRow w c r).map Prod.fst =
      ["device", "mountpoint", "total_gb", "used_gb", "free_gb",
       "usage_percent", "filesystem", "status"] ∧
    (jsonRow w c r).map Prod.fst = specJsonFieldNames "GB" ∧
    ∃ s, ("status", JVal.str s) ∈ jsonRow w c r ∧
      (s = "OK" ∨ s = "WARNING" ∨ s = "CRITICAL") := by
  have hnames : specJsonFieldNames "GB" =
      ["device", "mountpoint", "total_gb", "used_gb", "free_gb",
       "usage_percent", "filesystem", "status"] := by decide
  refine ⟨?_, ?_, (statusOf w c r.percent).label, ?_, ?_⟩
  · simp [jsonRow]
  · rw [hnames]
    simp [jsonRow]
  · simp [jsonRow]
  · cases statusOf w c r.percent <;> simp [Status.label]

end Capacity
